import Mathlib

/-!
Verification of the timetable-processor repository's core logic against its
specification.

The development shallowly embeds, from the TypeScript sources:
  * the Orchestration Boundary of the upload endpoint (`timetable-api`):
    the `close`/`error` event handlers, the last-line JSON parse, the
    regex-based fallback extraction, the `timetable_source_id` falsiness
    check, the database read, and the `sendResponse` single-response guard;
  * the Calendar Projector (`CalendarView.tsx`): `generateTimeslots`,
    `timeToMinutes`, `getActivitiesForSlot`, the rendered day columns and
    per-slot cells;
  * the upload response normalization in `App.tsx` (`handleUpload`).

Modelling notes for JavaScript runtime primitives used by that code:
  * `JSON.parse` is embedded as a recursive-descent parser over the JSON
    grammar at integer numeric precision: fractional/exponent numerals and
    `\u` string escapes are modelled as parse failures, which no theorem
    below exercises.  On success the whole input (modulo surrounding JSON
    whitespace) must be consumed, as in JavaScript.
  * `Number(s)` (reached through `timeToMinutes`) is embedded on its
    integer fragment: whitespace-only strings coerce to 0, optionally
    signed digit strings to their value, and anything else to NaN,
    represented as `none`; NaN propagation makes every `<` comparison
    involving it false, as in JavaScript.
  * JavaScript member access `result.timetable_source_id` throws a
    `TypeError` when `result` is `null`; this is modelled as the `none`
    (crashing, no response) outcome of the handler.
-/

/-- JavaScript-visible JSON values (numbers at integer precision). -/
inductive Json where
  | null : Json
  | bool (b : Bool) : Json
  | num (n : Int) : Json
  | str (s : String) : Json
  | arr (elems : List Json) : Json
  | obj (fields : List (String × Json)) : Json

/-- Digit run to its numeric value. -/
def digitsToNat (ds : List Char) : Nat :=
  ds.foldl (fun acc c => acc * 10 + (c.toNat - '0'.toNat)) 0

/-- JSON insignificant whitespace (space, tab, line feed, carriage return). -/
def skipWs (cs : List Char) : List Char :=
  cs.dropWhile fun c => c == ' ' || c == '\t' || c == '\n' || c == '\r'

/-- JavaScript `String.prototype.trim` on the whitespace characters that can
occur in process output: strip leading and trailing whitespace. -/
def jsTrim (s : String) : String :=
  let ws : Char → Bool := fun c => c == ' ' || c == '\t' || c == '\n' || c == '\r'
  String.mk ((((s.toList.dropWhile ws).reverse).dropWhile ws).reverse)

/-- JavaScript `String.prototype.split` with a single-character separator. -/
def splitChars (sep : Char) : List Char → List (List Char)
  | [] => [[]]
  | c :: cs =>
    let r := splitChars sep cs
    if c = sep then [] :: r
    else
      match r with
      | f :: rest => (c :: f) :: rest
      | [] => [[c]]

/-- `s.split(sep)` for a one-character separator string. -/
def jsSplit (sep : Char) (s : String) : List String :=
  (splitChars sep s.toList).map String.mk

/-- ASCII lowering of one character (the fragment of
`String.prototype.toLowerCase` exercised by day names). -/
def lowerChar (c : Char) : Char :=
  if 'A' ≤ c ∧ c ≤ 'Z' then Char.ofNat (c.toNat + 32) else c

/-- JavaScript `String.prototype.toLowerCase` (ASCII fragment). -/
def jsToLower (s : String) : String :=
  String.mk (s.toList.map lowerChar)

/-- Decimal digit to its character. -/
def digitChar (n : Nat) : Char := Char.ofNat ('0'.toNat + n)

/-- Decimal rendering of a natural number (fuel-indexed helper). -/
def natDigitsAux : Nat → Nat → List Char
  | 0, _ => []
  | fuel + 1, n => if n < 10 then [digitChar n] else natDigitsAux fuel (n / 10) ++ [digitChar (n % 10)]

/-- The template-literal rendering `${n}` of a natural number. -/
def natToString (n : Nat) : String := String.mk (natDigitsAux (n + 1) n)

/-- Single-character JSON string escapes; `\u` escapes are modelled as failure. -/
def escChar (e : Char) : Option Char :=
  if e = '"' ∨ e = '\\' ∨ e = '/' then some e
  else if e = 'n' then some '\n'
  else if e = 't' then some '\t'
  else if e = 'r' then some '\r'
  else if e = 'b' then some (Char.ofNat 8)
  else if e = 'f' then some (Char.ofNat 12)
  else none

/-- Parse the body of a JSON string after the opening quote; returns the
decoded characters and the remainder after the closing quote. -/
def parseStrChars : Nat → List Char → Option (List Char × List Char)
  | 0, _ => none
  | _ + 1, [] => none
  | fuel + 1, c :: cs =>
    if c = '"' then some ([], cs)
    else if c = '\\' then
      match cs with
      | e :: cs' =>
        match escChar e with
        | some d => (parseStrChars fuel cs').map fun p => (d :: p.1, p.2)
        | none => none
      | [] => none
    else (parseStrChars fuel cs).map fun p => (c :: p.1, p.2)

/-- Parse an unsigned JSON integer numeral (no leading zeros; a following
`.`/`e`/`E` would start a fractional or exponent part, modelled as failure). -/
def parseJsonNat (cs : List Char) : Option (Nat × List Char) :=
  let ds := cs.takeWhile Char.isDigit
  let rest := cs.drop ds.length
  if ds = [] then none
  else if 1 < ds.length ∧ ds.head? = some '0' then none
  else match rest with
    | '.' :: _ => none
    | 'e' :: _ => none
    | 'E' :: _ => none
    | _ => some (digitsToNat ds, rest)

/-- Parse a JSON number (integer-precision model). -/
def parseJsonNumber (cs : List Char) : Option (Json × List Char) :=
  match cs with
  | '-' :: rest => (parseJsonNat rest).map fun p => (Json.num (-(p.1 : Int)), p.2)
  | _ => (parseJsonNat cs).map fun p => (Json.num (p.1 : Int), p.2)

mutual

/-- Recursive-descent parser for one JSON value (fuel-indexed). -/
def parseVal : Nat → List Char → Option (Json × List Char)
  | 0, _ => none
  | fuel + 1, cs0 =>
    let cs := skipWs cs0
    match cs with
    | '"' :: rest => (parseStrChars fuel rest).map fun p => (Json.str (String.mk p.1), p.2)
    | '\x7b' :: rest =>
      match skipWs rest with
      | '\x7d' :: r => some (Json.obj [], r)
      | _ => (parseMembers fuel rest).map fun p => (Json.obj p.1, p.2)
    | '[' :: rest =>
      match skipWs rest with
      | ']' :: r => some (Json.arr [], r)
      | _ => (parseElems fuel rest).map fun p => (Json.arr p.1, p.2)
    | 't' :: rest => if ['r', 'u', 'e'].isPrefixOf rest then some (Json.bool true, rest.drop 3) else none
    | 'f' :: rest => if ['a', 'l', 's', 'e'].isPrefixOf rest then some (Json.bool false, rest.drop 4) else none
    | 'n' :: rest => if ['u', 'l', 'l'].isPrefixOf rest then some (Json.null, rest.drop 3) else none
    | _ => parseJsonNumber cs

/-- Parse the comma-separated elements of a nonempty JSON array, up to and
including the closing bracket. -/
def parseElems : Nat → List Char → Option (List Json × List Char)
  | 0, _ => none
  | fuel + 1, cs =>
    match parseVal fuel cs with
    | none => none
    | some (v, rest) =>
      match skipWs rest with
      | ',' :: rest' =>
        match parseElems fuel rest' with
        | some (vs, r) => some (v :: vs, r)
        | none => none
      | ']' :: rest' => some ([v], rest')
      | _ => none

/-- Parse the members of a nonempty JSON object, up to and including the
closing brace. -/
def parseMembers : Nat → List Char → Option (List (String × Json) × List Char)
  | 0, _ => none
  | fuel + 1, cs0 =>
    match skipWs cs0 with
    | '"' :: rest =>
      match parseStrChars fuel rest with
      | some (key, rest1) =>
        match skipWs rest1 with
        | ':' :: rest2 =>
          match parseVal fuel rest2 with
          | some (v, rest3) =>
            match skipWs rest3 with
            | ',' :: rest4 =>
              match parseMembers fuel rest4 with
              | some (ms, r) => some ((String.mk key, v) :: ms, r)
              | none => none
            | '\x7d' :: rest4 => some ([(String.mk key, v)], rest4)
            | _ => none
          | none => none
        | _ => none
      | none => none
    | _ => none

end

/-- Embedding of `JSON.parse`: parse one value and require the rest of the
input to be JSON whitespace; `none` models a thrown `SyntaxError`. -/
def jsonParse (s : String) : Option Json :=
  let cs := s.toList
  match parseVal (2 * cs.length + 4) cs with
  | some (v, rest) => if skipWs rest = [] then some v else none
  | none => none

/-! ## The fallback extraction regex

Embedding of `/\{[^{}]*"timetable_source_id"[^{}]*\}(?!.*\{)/` and its use
through `RegExp.exec` on the trimmed stdout.  In JavaScript `[^{}]` matches
line terminators while the `.` of the lookahead does not, so the negative
lookahead `(?!.*\{)` only inspects the remainder of the line on which the
candidate match ends. -/

/-- The quoted key the regex requires inside the braces. -/
def sourceIdKeyChars : List Char := "\"timetable_source_id\"".toList

/-- Whether `needle` occurs as a contiguous subsequence of the haystack. -/
def listContainsSeq (needle : List Char) : List Char → Bool
  | [] => needle.isEmpty
  | c :: cs => needle.isPrefixOf (c :: cs) || listContainsSeq needle cs

/-- Try to match `\{[^{}]*"timetable_source_id"[^{}]*\}` at the head of the
input; on success return the matched fragment and the remaining characters. -/
def fragSplit (cs : List Char) : Option (List Char × List Char) :=
  match cs with
  | '\x7b' :: rest =>
    let content := rest.takeWhile fun c => !(c == '\x7b' || c == '\x7d')
    match rest.drop content.length with
    | '\x7d' :: after =>
      if listContainsSeq sourceIdKeyChars content then
        some ('\x7b' :: (content ++ ['\x7d']), after)
      else none
    | _ => none
  | _ => none

/-- The negative lookahead `(?!.*\{)`: no `{` in the remainder of the
current line (`.` does not match line terminators). -/
def cleanAfter (after : List Char) : Bool :=
  !((after.takeWhile fun c => !(c == '\n')).contains '\x7b')

/-- Full pattern (fragment together with its lookahead) at the head. -/
def matchCleanHere (cs : List Char) : Option (List Char) :=
  match fragSplit cs with
  | some (frag, after) => if cleanAfter after then some frag else none
  | none => none

/-- `RegExp.exec`: return the match at the leftmost position where the full
pattern (including the lookahead) succeeds. -/
def execFallback : List Char → Option (List Char)
  | [] => none
  | c :: cs =>
    match matchCleanHere (c :: cs) with
    | some frag => some frag
    | none => execFallback cs

/-- A payload-shaped fragment at the head, ignoring the lookahead. -/
def fragHere (cs : List Char) : Option (List Char) :=
  (fragSplit cs).map Prod.fst

/-- Modelled from the spec: "scan the full result-channel text for the last
occurrence of a payload-shaped fragment (a self-contained structured object
containing the required source-identifier key)" — the fragment starting at
the last position where a payload-shaped fragment occurs. -/
def specLastFragment (cs : List Char) : Option (List Char) :=
  ((List.range cs.length).filterMap fun j => fragHere (cs.drop j)).getLast?

/-! ## The upload endpoint's `close` handler -/

/-- Outcome of the two-strategy extraction of the result payload from the
processor's stdout (lines 116–137 of the handler). -/
inductive ParseOutcome where
  | primary (v : Json)
  | fallback (v : Json)
  | noJson
  | badFragment (frag : String)

/-- `stdout.trim().split('\n')` followed by `lines.at(-1) ?? ''`. -/
def lastLineOf (stdout : String) : String :=
  (jsSplit '\n' (jsTrim stdout)).getLast?.getD ""

/-- The two-strategy payload extraction: `JSON.parse` on the last line of
the trimmed stdout, else the fallback regex on the whole trimmed stdout. -/
def extractResult (stdout : String) : ParseOutcome :=
  match jsonParse (lastLineOf stdout) with
  | some v => ParseOutcome.primary v
  | none =>
    match execFallback (jsTrim stdout).toList with
    | none => ParseOutcome.noJson
    | some fragChars =>
      match jsonParse (String.mk fragChars) with
      | some v => ParseOutcome.fallback v
      | none => ParseOutcome.badFragment (String.mk fragChars)

/-- One row of `timetable_sources`. -/
structure SourceRow where
  id : Int
  file_path : String
  processed_at : String
deriving DecidableEq

/-- One row of `extracted_activities` as selected by the handler. -/
structure ActivityRow where
  id : Int
  day : String
  activity_name : String
  start_time : String
  end_time : String
  notes : Option String
deriving DecidableEq

/-- Outcome of the read-only database access for one source id: a thrown
error, an absent source, or the source row with its activity rows. -/
inductive DbOutcome where
  | fail (msg : String)
  | notFound
  | found (src : SourceRow) (acts : List ActivityRow)

/-- JavaScript falsiness of the possibly-undefined member value
(`undefined`, `null`, `false`, `0` and `""` are falsy). -/
def jsFalsy : Option Json → Bool
  | none => true
  | some Json.null => true
  | some (Json.bool false) => true
  | some (Json.num 0) => true
  | some (Json.str "") => true
  | _ => false

/-- JavaScript member access `v.key`: a `TypeError` (`Except.error`) on
`null`, the field value (last binding wins, as `JSON.parse` keeps the last
duplicate key) on objects, `undefined` on every other value. -/
def jsMember (v : Json) (key : String) : Except Unit (Option Json) :=
  match v with
  | Json.null => Except.error ()
  | Json.obj fields => Except.ok ((fields.reverse).lookup key)
  | _ => Except.ok none

/-- JSON body of the 200 response built from the database rows. -/
def successBody (src : SourceRow) (acts : List ActivityRow) : Json :=
  Json.obj
    [("timetable_source_id", Json.num src.id),
     ("file_path", Json.str src.file_path),
     ("processed_at", Json.str src.processed_at),
     ("activities", Json.arr (acts.map fun a =>
       Json.obj
         [("id", Json.num a.id),
          ("day", Json.str a.day),
          ("activity_name", Json.str a.activity_name),
          ("start_time", Json.str a.start_time),
          ("end_time", Json.str a.end_time),
          ("notes", match a.notes with | some s => Json.str s | none => Json.null)]))]

/-- The part of the `close` handler after a payload was recovered: the
`timetable_source_id` falsiness check followed by the database read
(lines 139–189).  `none` models an uncaught exception (no response). -/
def handleResult (result : Json) (db : Json → DbOutcome) : Option (Nat × Json) :=
  match jsMember result "timetable_source_id" with
  | Except.error _ => none
  | Except.ok none =>
    some (500, Json.obj [("error", Json.str "No timetable_source_id in processor output")])
  | Except.ok (some sid) =>
    if jsFalsy (some sid) then
      some (500, Json.obj [("error", Json.str "No timetable_source_id in processor output")])
    else
      match db sid with
      | DbOutcome.fail msg =>
        some (500, Json.obj [("error", Json.str "Failed to read from database"),
                             ("details", Json.str msg)])
      | DbOutcome.notFound =>
        some (404, Json.obj [("error", Json.str "Timetable source not found in database")])
      | DbOutcome.found src acts => some (200, successBody src acts)

/-- The `child.on("close")` handler: nonzero exit reports the stderr text;
otherwise the payload is extracted from stdout and handled.  The response is
the status code together with the JSON body passed to `res.status(...).json`;
the string passed for a fallback-fragment `JSON.parse` error is abstracted to
`"SyntaxError"`. -/
def handleClose (code : Int) (stdout stderr : String) (db : Json → DbOutcome) :
    Option (Nat × Json) :=
  if code ≠ 0 then
    some (500, Json.obj [("error", Json.str "Processor failed"),
                         ("code", Json.num code),
                         ("details", Json.str stderr)])
  else
    match extractResult stdout with
    | ParseOutcome.primary v => handleResult v db
    | ParseOutcome.fallback v => handleResult v db
    | ParseOutcome.noJson =>
      some (500, Json.obj [("error", Json.str "No valid JSON output from processor"),
                           ("raw", Json.str stdout)])
    | ParseOutcome.badFragment _ =>
      some (500, Json.obj [("error", Json.str "Invalid JSON from processor"),
                           ("parseError", Json.str "SyntaxError"),
                           ("raw", Json.str stdout)])

/-- Terminating child-process events observed by the upload handler. -/
inductive ChildEvent where
  | errorEvt (err : String)
  | closeEvt (code : Int) (stdout stderr : String)

/-- The response each event's handler passes to `sendResponse` (`none` when
the handler crashes before responding). -/
def eventResponse (db : Json → DbOutcome) : ChildEvent → Option (Nat × Json)
  | ChildEvent.errorEvt err =>
    some (500, Json.obj [("error", Json.str "Failed to start processor"),
                         ("details", Json.str err)])
  | ChildEvent.closeEvt code out err => handleClose code out err db

/-- Run the observed events in order through the `sendResponse` guard:
`sent` is the `responseSent` flag, the returned list is the sequence of
responses actually written; a crashing handler terminates the process. -/
def runEvents (db : Json → DbOutcome) : Bool → List ChildEvent → List (Nat × Json)
  | _, [] => []
  | sent, e :: rest =>
    match eventResponse db e with
    | none => []
    | some r =>
      if sent then runEvents db true rest
      else r :: runEvents db true rest

mutual

/-- All string leaves of a JSON value (the texts a response body carries). -/
def jsonStrings : Json → List String
  | Json.null => []
  | Json.bool _ => []
  | Json.num _ => []
  | Json.str s => [s]
  | Json.arr elems => jsonStringsOfList elems
  | Json.obj fields => jsonStringsOfFields fields

/-- String leaves of a list of JSON values. -/
def jsonStringsOfList : List Json → List String
  | [] => []
  | v :: vs => jsonStrings v ++ jsonStringsOfList vs

/-- String leaves of the values of a field list. -/
def jsonStringsOfFields : List (String × Json) → List String
  | [] => []
  | f :: fs => jsonStrings f.2 ++ jsonStringsOfFields fs

end

/-- Whether a response body carries the text `s` (as a substring of one of
its string leaves). -/
def bodyCarries (body : Json) (s : String) : Bool :=
  (jsonStrings body).any fun t => listContainsSeq s.toList t.toList

/-! ## The Calendar Projector (`CalendarView.tsx`) -/

/-- The `Activity` interface of the calendar view. -/
structure Activity where
  id : Int
  day : String
  start_time : String
  activity_name : String
  end_time : String
  notes : Option String
deriving DecidableEq

/-- The integer fragment of JavaScript `Number(s)` string coercion:
whitespace-only coerces to 0, optionally signed digit strings to their
value, anything else (including decimals) to NaN, modelled as `none`. -/
def jsNumber (s : String) : Option Int :=
  let t := jsTrim s
  if t = "" then some 0
  else
    match t.toList with
    | '-' :: ds =>
      if ds ≠ [] ∧ ds.all Char.isDigit then some (-(digitsToNat ds : Int)) else none
    | '+' :: ds =>
      if ds ≠ [] ∧ ds.all Char.isDigit then some ((digitsToNat ds : Int)) else none
    | ds =>
      if ds ≠ [] ∧ ds.all Char.isDigit then some ((digitsToNat ds : Int)) else none

/-- `timeToMinutes`: `time.split(':').map(Number)`, destructure the first
two entries as hours and minutes, return `hours * 60 + minutes`; a missing
or non-numeric part yields NaN (`none`). -/
def timeToMinutes (time : String) : Option Int :=
  let nums := (jsSplit ':' time).map jsNumber
  match nums.get? 0, nums.get? 1 with
  | some (some h), some (some m) => some (h * 60 + m)
  | _, _ => none

/-- JavaScript `<` on possibly-NaN numbers: any comparison with NaN is false. -/
def jsLt : Option Int → Option Int → Bool
  | some a, some b => a < b
  | _, _ => false

/-- `getActivitiesForSlot`: the activities of `day` whose half-open interval
overlaps the slot (`actStart < slotEnd && actEnd > slotStart`), day compared
case-insensitively. -/
def getActivitiesForSlot (day slotStart slotEnd : String)
    (activities : List Activity) : List Activity :=
  let slotStartMins := timeToMinutes slotStart
  let slotEndMins := timeToMinutes slotEnd
  activities.filter fun activity =>
    if jsToLower activity.day != jsToLower day then false
    else
      jsLt (timeToMinutes activity.start_time) slotEndMins &&
      jsLt slotStartMins (timeToMinutes activity.end_time)

/-- `generateTimeslots`: for each hour from 8 to 15 push `"{hour}:00"` and
`"{hour}:30"`. -/
def generateTimeslots : List String :=
  (List.range' 8 8).flatMap fun hour => [natToString hour ++ ":00", natToString hour ++ ":30"]

/-- The rendered day columns (`const days = [...]` in `CalendarView`). -/
def days : List String :=
  ["Sunday", "Monday", "Tuesday", "Wednesday", "Thursday", "Friday"]

/-- `getNextTimeslot`: `timeslots[index + 1] || '16:00'` (JavaScript `||`
also falls through on an empty string). -/
def getNextTimeslot (idx : Nat) : String :=
  match generateTimeslots.get? (idx + 1) with
  | some t => if t = "" then "16:00" else t
  | none => "16:00"

/-- The activities rendered in the cell of column `day` and row `idx`
(`getActivitiesForSlot(day, timeslot, nextTimeslot, activities)`). -/
def calendarCell (activities : List Activity) (day : String) (idx : Nat) : List Activity :=
  getActivitiesForSlot day (generateTimeslots.getD idx "") (getNextTimeslot idx) activities

/-- Modelled from the spec: the fixed 7-value day-of-week domain
("day: one of a fixed 7-value day-of-week domain"). -/
def canonicalDayNames : List String :=
  ["Sunday", "Monday", "Tuesday", "Wednesday", "Thursday", "Friday", "Saturday"]

/-! ## The upload response normalization (`App.tsx`) -/

/-- A raw activity object of the response before normalization; `none`
models an absent property (`undefined`), `some Json.null` a `null` one. -/
structure RawActivity where
  id : Option Json
  day : Option Json
  start_time : Option Json
  end_time : Option Json
  notes : Option Json
  activity_name : Option Json
  activity : Option Json

/-- JavaScript nullishness (`undefined` or `null`), as tested by `??`. -/
def jsNullish : Option Json → Bool
  | none => true
  | some Json.null => true
  | _ => false

/-- The nullish-coalescing operator `x ?? y`. -/
def jsCoalesce (x y : Option Json) : Option Json :=
  if jsNullish x then y else x

/-- One step of the `handleUpload` normalization map: rebuilds the object
with `notes: a.notes ?? null` and
`activity_name: a.activity_name ?? a.activity ?? ''`; the legacy `activity`
key is not part of the rebuilt object. -/
def normalizeActivity (a : RawActivity) : RawActivity :=
  { id := a.id
    day := a.day
    start_time := a.start_time
    end_time := a.end_time
    notes := jsCoalesce a.notes (some Json.null)
    activity_name := jsCoalesce a.activity_name (jsCoalesce a.activity (some (Json.str "")))
    activity := none }

/-- `data.activities = data.activities.map(...)`. -/
def normalizeActivities (l : List RawActivity) : List RawActivity :=
  l.map normalizeActivity

/-- Whether a property value is absent, `null`, or a string — the
well-formedness the normalization claim assumes of name fields. -/
def isStrOrNullish : Option Json → Bool
  | none => true
  | some Json.null => true
  | some (Json.str _) => true
  | _ => false

/-! ## Helper lemmas -/

/-- Every list is a prefix of itself. -/
lemma isPrefixOf_self (l : List Char) : l.isPrefixOf l = true := by
  induction l with
  | nil => rfl
  | cons c cs ih => simp [List.isPrefixOf, ih]

/-- Every character list contains itself as a contiguous subsequence. -/
lemma listContainsSeq_self (l : List Char) : listContainsSeq l l = true := by
  cases l with
  | nil => rfl
  | cons c cs => unfold listContainsSeq; rw [isPrefixOf_self]; rfl

/-- `exec` semantics of the fallback regex: if the full pattern (fragment
plus lookahead) matches at position `i` and at no earlier position, `exec`
returns the fragment matched at `i`. -/
lemma execFallback_eq_of_first (cs : List Char) (i : Nat) (frag : List Char)
    (hi : matchCleanHere (cs.drop i) = some frag)
    (hfirst : ∀ j, j < i → matchCleanHere (cs.drop j) = none) :
    execFallback cs = some frag := by
  induction cs generalizing i with
  | nil =>
    rw [List.drop_nil] at hi
    simp [matchCleanHere, fragSplit] at hi
  | cons c cs ih =>
    cases i with
    | zero =>
      rw [List.drop_zero] at hi
      unfold execFallback
      rw [hi]
    | succ i' =>
      have h0 : matchCleanHere (c :: cs) = none := by
        simpa using hfirst 0 (Nat.succ_pos i')
      unfold execFallback
      rw [h0]
      exact ih i' (by simpa using hi) fun j hj => by
        simpa using hfirst (j + 1) (Nat.succ_lt_succ hj)

/-- `jsLt` on two genuine numbers is the numeric comparison. -/
lemma jsLt_some_some (a b : Int) : jsLt (some a) (some b) = decide (a < b) := rfl

/-- Reduction of the day-guarded slot predicate. -/
lemma ite_bne_false_iff (x y : String) (z : Bool) :
    ((if x != y then false else z) = true) ↔ (x = y ∧ z = true) := by
  by_cases h : x = y
  · subst h; simp
  · simp [h]

/-- Membership in `getActivitiesForSlot` is input membership plus the
case-insensitive day test plus the two overlap comparisons. -/
lemma mem_getActivitiesForSlot (a : Activity) (d sS sE : String) (acts : List Activity) :
    a ∈ getActivitiesForSlot d sS sE acts ↔
      (a ∈ acts ∧ jsToLower a.day = jsToLower d ∧
        jsLt (timeToMinutes a.start_time) (timeToMinutes sE) = true ∧
        jsLt (timeToMinutes sS) (timeToMinutes a.end_time) = true) := by
  unfold getActivitiesForSlot
  rw [List.mem_filter, ite_bne_false_iff, Bool.and_eq_true]

/-- The parsed slot boundaries of row `k` of the grid: slot `k` starts at
`480 + 30k` minutes and ends at `510 + 30k` minutes. -/
lemma slot_bounds : ∀ k : Nat, k < 16 →
    timeToMinutes (generateTimeslots.getD k "") = some (480 + 30 * (k : Int)) ∧
    timeToMinutes (getNextTimeslot k) = some (510 + 30 * (k : Int)) := by decide

/-- Membership in a grid cell, with the slot boundaries evaluated. -/
lemma mem_calendarCell_iff (acts : List Activity) (a : Activity) (d : String)
    (k : Nat) (hk : k < 16) (sa ea : Int)
    (hs : timeToMinutes a.start_time = some sa)
    (he : timeToMinutes a.end_time = some ea) :
    a ∈ calendarCell acts d k ↔
      (a ∈ acts ∧ jsToLower a.day = jsToLower d ∧
        sa < 510 + 30 * (k : Int) ∧ 480 + 30 * (k : Int) < ea) := by
  obtain ⟨h1, h2⟩ := slot_bounds k hk
  unfold calendarCell
  rw [mem_getActivitiesForSlot, h1, h2, hs, he, jsLt_some_some, jsLt_some_some]
  simp

/-- With the single-response flag already set, no further response is sent. -/
lemma runEvents_sent (db : Json → DbOutcome) (events : List ChildEvent) :
    runEvents db true events = [] := by
  induction events with
  | nil => rfl
  | cons e rest ih =>
    unfold runEvents
    cases eventResponse db e with
    | none => rfl
    | some r => simpa using ih

/-! ## Claim theorems -/

/-- The C1 counterexample's stdout: two payload-shaped fragments on separate
lines, with an unparseable last line. -/
def c1Stdout : String :=
  "\x7b\"timetable_source_id\":1\x7d\n\x7b\"timetable_source_id\":2\x7d x"

/-- **C1, counterexample.** On `c1Stdout` the last line does not parse as
JSON, the LAST payload-shaped fragment of the text is
`{"timetable_source_id":2}` (which parses to identifier 2), yet the fallback
recovers the fragment with identifier 1: because the regex's negative
lookahead `(?!.*\{)` only inspects the rest of the current line, `exec`
accepts the first fragment, not the last one, contradicting the claim that
the fallback recovers the last occurrence. -/
theorem C1_fallback_last_counterexample :
    jsonParse (lastLineOf c1Stdout) = none
    ∧ (specLastFragment (jsTrim c1Stdout).toList).map String.mk =
        some "\x7b\"timetable_source_id\":2\x7d"
    ∧ jsonParse "\x7b\"timetable_source_id\":2\x7d" =
        some (Json.obj [("timetable_source_id", Json.num 2)])
    ∧ extractResult c1Stdout =
        ParseOutcome.fallback (Json.obj [("timetable_source_id", Json.num 1)]) :=
  ⟨rfl, rfl, rfl, rfl⟩

/-- **C1, amended.** When the last line of the trimmed stdout does not parse,
the fallback scans left to right and recovers the FIRST payload-shaped
fragment that is not followed by a further `{` on the same line (for a unique
fragment this is that fragment), and parses it as the result; a trailing line
that itself parses as the payload is recovered by the primary strategy
(§8-style instance with the code's source-identifier key). -/
theorem C1_fallback_parse (stdout : String) (i : Nat) (frag : List Char) (v : Json)
    (hlast : jsonParse (lastLineOf stdout) = none)
    (hmatch : matchCleanHere ((jsTrim stdout).toList.drop i) = some frag)
    (hfirst : ∀ j, j < i → matchCleanHere ((jsTrim stdout).toList.drop j) = none)
    (hparse : jsonParse (String.mk frag) = some v) :
    extractResult stdout = ParseOutcome.fallback v
    ∧ extractResult "log line\nlog line\n\x7b\"timetable_source_id\":7\x7d" =
        ParseOutcome.primary (Json.obj [("timetable_source_id", Json.num 7)]) := by
  refine ⟨?_, rfl⟩
  unfold extractResult
  rw [hlast, execFallback_eq_of_first _ i frag hmatch hfirst]
  simp [hparse]

/-- **C1, witness.** Polluted stdout whose only payload-shaped fragment sits
on its own line in the middle: the fallback recovers identifier 7. -/
theorem C1_fallback_parse_witness :
    extractResult "log line\nlog \x7bbroken\n\x7b\"timetable_source_id\":7\x7d\ntrailing junk" =
      ParseOutcome.fallback (Json.obj [("timetable_source_id", Json.num 7)]) :=
  (C1_fallback_parse "log line\nlog \x7bbroken\n\x7b\"timetable_source_id\":7\x7d\ntrailing junk"
    21 ("\x7b\"timetable_source_id\":7\x7d".toList)
    (Json.obj [("timetable_source_id", Json.num 7)])
    rfl rfl (by decide) rfl).1

/-- **C2.** A record is placed in the grid cell of column `d`, row `k` iff it
is an input record, its day case-insensitively matches `d`, and its half-open
interval overlaps the half-open slot `[480+30k, 480+30k+30)`; in particular a
record whose start equals the slot's end, or whose end equals the slot's
start, is not placed there. -/
theorem C2_overlap_law (acts : List Activity) (a : Activity) (d : String)
    (k : Nat) (hk : k < 16) (sa ea : Int)
    (hs : timeToMinutes a.start_time = some sa)
    (he : timeToMinutes a.end_time = some ea) :
    (a ∈ calendarCell acts d k ↔
      (a ∈ acts ∧ jsToLower a.day = jsToLower d ∧
        sa < (480 + 30 * (k : Int)) + 30 ∧ (480 + 30 * (k : Int)) < ea))
    ∧ (sa = (480 + 30 * (k : Int)) + 30 → a ∉ calendarCell acts d k)
    ∧ (ea = 480 + 30 * (k : Int) → a ∉ calendarCell acts d k) := by
  have hcell := mem_calendarCell_iff acts a d k hk sa ea hs he
  refine ⟨?_, ?_, ?_⟩
  · rw [hcell]
    constructor
    · rintro ⟨h1, h2, h3, h4⟩
      exact ⟨h1, h2, by omega, h4⟩
    · rintro ⟨h1, h2, h3, h4⟩
      exact ⟨h1, h2, by omega, h4⟩
  · intro hsa hmem
    rw [hcell] at hmem
    omega
  · intro hea hmem
    rw [hcell] at hmem
    omega

/-- **C2, witness.** A 9:00–10:00 Monday record sits in the 9:00 slot
(row 2) of the Monday column. -/
theorem C2_overlap_law_witness :
    (⟨1, "Monday", "9:00", "Math", "10:00", none⟩ : Activity) ∈
      calendarCell [⟨1, "Monday", "9:00", "Math", "10:00", none⟩] "Monday" 2 :=
  ((C2_overlap_law [⟨1, "Monday", "9:00", "Math", "10:00", none⟩]
    ⟨1, "Monday", "9:00", "Math", "10:00", none⟩ "Monday" 2 (by decide)
    540 600 rfl rfl).1).mpr ⟨by decide, rfl, by decide, by decide⟩

/-- **C3, counterexample.** With exit status 0, stdout with no payload and a
nonempty stderr, both strategies fail and the handler's error response
carries only the result channel's text (`raw: stdout`): it does not carry the
diagnostic channel's (stderr) content, contradicting the claim for the
parse-failure case. -/
theorem C3_error_report_counterexample :
    handleClose 0 "no json here" "diag-zzz" (fun _ => DbOutcome.notFound) =
      some (500, Json.obj [("error", Json.str "No valid JSON output from processor"),
                           ("raw", Json.str "no json here")])
    ∧ bodyCarries (Json.obj [("error", Json.str "No valid JSON output from processor"),
                             ("raw", Json.str "no json here")]) "diag-zzz" = false :=
  ⟨rfl, rfl⟩

/-- **C3, amended.** A nonzero exit status yields a 500 error response whose
`details` field is the diagnostic channel's (stderr) content; a failure of
both parse strategies yields a 500 error response carrying the raw result
channel (stdout) text instead; in every such case the handler returns that
error response and never a result derived from the unparseable output. -/
theorem C3_error_report (code : Int) (stdout stderr : String) (db : Json → DbOutcome) :
    (code ≠ 0 →
      handleClose code stdout stderr db =
        some (500, Json.obj [("error", Json.str "Processor failed"),
                             ("code", Json.num code),
                             ("details", Json.str stderr)])
      ∧ bodyCarries (Json.obj [("error", Json.str "Processor failed"),
                               ("code", Json.num code),
                               ("details", Json.str stderr)]) stderr = true)
    ∧ (code = 0 → extractResult stdout = ParseOutcome.noJson →
      handleClose code stdout stderr db =
        some (500, Json.obj [("error", Json.str "No valid JSON output from processor"),
                             ("raw", Json.str stdout)]))
    ∧ (∀ frag, code = 0 → extractResult stdout = ParseOutcome.badFragment frag →
      handleClose code stdout stderr db =
        some (500, Json.obj [("error", Json.str "Invalid JSON from processor"),
                             ("parseError", Json.str "SyntaxError"),
                             ("raw", Json.str stdout)])) := by
  refine ⟨fun h => ⟨?_, ?_⟩, fun h0 hN => ?_, fun frag h0 hB => ?_⟩
  · unfold handleClose
    rw [if_pos h]
  · simp [bodyCarries, jsonStrings, jsonStringsOfFields, List.any, listContainsSeq_self]
  · unfold handleClose
    rw [if_neg (by simp [h0]), hN]
  · unfold handleClose
    rw [if_neg (by simp [h0]), hB]

/-- **C3, witness.** Exit status 1 with stderr `"boom"` yields the 500
response whose `details` field is `"boom"`. -/
theorem C3_error_report_witness :
    handleClose 1 "out" "boom" (fun _ => DbOutcome.notFound) =
      some (500, Json.obj [("error", Json.str "Processor failed"),
                           ("code", Json.num 1),
                           ("details", Json.str "boom")]) :=
  ((C3_error_report 1 "out" "boom" (fun _ => DbOutcome.notFound)).1 (by decide)).1

/-- **C4, counterexample.** "Saturday" belongs (case-insensitively) to the
7-value canonical day vocabulary and the record 9:00–10:00 lies inside the
display window, yet the rendered grid — whose columns are only Sunday
through Friday — shows it in no cell: the grid does not contain a column for
every canonical day. -/
theorem C4_day_matching_counterexample :
    "saturday" ∈ canonicalDayNames.map jsToLower
    ∧ ∀ d ∈ days, ∀ k : Nat, k < 16 →
        (⟨1, "Saturday", "9:00", "X", "10:00", none⟩ : Activity) ∉
          calendarCell [⟨1, "Saturday", "9:00", "X", "10:00", none⟩] d k := by decide

/-- **C4, amended.** Day matching is case-insensitive against the SIX
rendered day names (Sunday–Friday, the grid has no Saturday column): an
input record whose day matches one of them and whose valid interval meets
the 08:00–16:00 window appears in a cell of that day's column, while a
record whose day matches none of the rendered names appears in no cell of
the grid (it is excluded rather than failing the render). -/
theorem C4_day_matching (acts : List Activity) (a : Activity) :
    (∀ d, d ∈ days → a ∈ acts → jsToLower a.day = jsToLower d →
      ∀ sa ea : Int, timeToMinutes a.start_time = some sa →
        timeToMinutes a.end_time = some ea →
        sa < ea → sa < 960 → 480 < ea →
        ∃ k, k < 16 ∧ a ∈ calendarCell acts d k)
    ∧ (jsToLower a.day ∉ days.map jsToLower →
        ∀ d ∈ days, ∀ k : Nat, a ∉ calendarCell acts d k) := by
  constructor
  · intro d _ hmem hday sa ea hs he hlt h960 h480
    by_cases hc : sa < 480
    · refine ⟨0, by norm_num, ?_⟩
      rw [mem_calendarCell_iff acts a d 0 (by norm_num) sa ea hs he]
      exact ⟨hmem, hday, by omega, by omega⟩
    · push_neg at hc
      have hq : ((sa - 480).toNat : Int) = sa - 480 := Int.toNat_of_nonneg (by omega)
      have hdm := Nat.div_add_mod (sa - 480).toNat 30
      have hmod : (sa - 480).toNat % 30 < 30 := Nat.mod_lt _ (by norm_num)
      have hk : (sa - 480).toNat / 30 < 16 := by omega
      refine ⟨(sa - 480).toNat / 30, hk, ?_⟩
      rw [mem_calendarCell_iff acts a d _ hk sa ea hs he]
      exact ⟨hmem, hday, by omega, by omega⟩
  · intro hno d hd k hmem
    rcases (mem_getActivitiesForSlot a d _ _ acts).mp hmem with ⟨_, hday, _, _⟩
    exact hno (hday ▸ List.mem_map_of_mem jsToLower hd)

/-- **C4, witness.** A lowercase-`"monday"` record from 9:00 to 10:00
appears in some cell of the Monday column. -/
theorem C4_day_matching_witness :
    ∃ k, k < 16 ∧
      (⟨1, "monday", "9:00", "X", "10:00", none⟩ : Activity) ∈
        calendarCell [⟨1, "monday", "9:00", "X", "10:00", none⟩] "Monday" k :=
  (C4_day_matching [⟨1, "monday", "9:00", "X", "10:00", none⟩]
    ⟨1, "monday", "9:00", "X", "10:00", none⟩).1 "Monday" (by decide)
    (List.mem_singleton.mpr rfl) rfl 540 600 rfl rfl (by decide) (by decide) (by decide)

/-- **C5.** The `sendResponse` guard makes the handler write at most one
response per invocation, whatever sequence of terminating events is
observed; moreover the first event that produces a response determines the
unique response written, and every later observation is suppressed. -/
theorem C5_single_response (db : Json → DbOutcome) :
    (∀ events : List ChildEvent, (runEvents db false events).length ≤ 1)
    ∧ (∀ (e : ChildEvent) (rest : List ChildEvent) (r : Nat × Json),
        eventResponse db e = some r → runEvents db false (e :: rest) = [r]) := by
  constructor
  · intro events
    cases events with
    | nil => simp [runEvents]
    | cons e rest =>
      unfold runEvents
      cases eventResponse db e with
      | none => simp
      | some r => simp [runEvents_sent]
  · intro e rest r hr
    unfold runEvents
    rw [hr]
    simp [runEvents_sent]

/-- **C5, witness.** An early spawn-error event followed by a successful
close event produces exactly the error response and nothing more. -/
theorem C5_single_response_witness :
    runEvents (fun _ => DbOutcome.notFound) false
      [ChildEvent.errorEvt "boom", ChildEvent.closeEvt 0 "x" "y"] =
      [(500, Json.obj [("error", Json.str "Failed to start processor"),
                       ("details", Json.str "boom")])] :=
  (C5_single_response (fun _ => DbOutcome.notFound)).2
    (ChildEvent.errorEvt "boom") [ChildEvent.closeEvt 0 "x" "y"] _ rfl

/-- **C6.** The primary strategy: whenever the last line of the trimmed
stdout parses as JSON, that value is the result payload (the fallback scan
is not consulted — the outcome is `primary`), and the rest of the
successful-exit handler proceeds on exactly that payload. -/
theorem C6_primary_parse (stdout : String) (v : Json)
    (h : jsonParse (lastLineOf stdout) = some v) :
    extractResult stdout = ParseOutcome.primary v
    ∧ ∀ (stderr : String) (db : Json → DbOutcome),
        handleClose 0 stdout stderr db = handleResult v db := by
  have hex : extractResult stdout = ParseOutcome.primary v := by
    unfold extractResult
    rw [h]
  refine ⟨hex, fun stderr db => ?_⟩
  unfold handleClose
  rw [if_neg (by norm_num), hex]

/-- **C6, witness.** Log text whose final line is a payload object: the
payload is recovered by the primary strategy. -/
theorem C6_primary_parse_witness :
    extractResult "log\n\x7b\"timetable_source_id\":7\x7d" =
      ParseOutcome.primary (Json.obj [("timetable_source_id", Json.num 7)]) :=
  (C6_primary_parse "log\n\x7b\"timetable_source_id\":7\x7d"
    (Json.obj [("timetable_source_id", Json.num 7)]) rfl).1

/-- **C7.** The slot axis is the fixed list 8:00, 8:30, …, 15:30: sixteen
slot-start labels whose parsed values are exactly 480, 510, …, 930 minutes
(start 08:00, step 30, up to but excluding 16:00), strictly increasing; the
generator takes no input, so the axis is independent of the records. -/
theorem C7_timeslot_axis :
    generateTimeslots =
      ["8:00", "8:30", "9:00", "9:30", "10:00", "10:30", "11:00", "11:30",
       "12:00", "12:30", "13:00", "13:30", "14:00", "14:30", "15:00", "15:30"]
    ∧ generateTimeslots.length = 16
    ∧ generateTimeslots.map timeToMinutes =
        (List.range 16).map (fun k => some (480 + 30 * (k : Int)))
    ∧ List.Pairwise (fun s t => jsLt (timeToMinutes s) (timeToMinutes t) = true)
        generateTimeslots := by decide

/-- **C8.** For every slot, the computed cell list is a sublist of the input
(so the relative input order of the retained records is preserved and no
single-occupancy restriction is applied), and it contains a record exactly
when the record is an input record satisfying the day test and the overlap
rule (no record satisfying them is dropped). -/
theorem C8_slot_retention (day slotStart slotEnd : String) (acts : List Activity) :
    (getActivitiesForSlot day slotStart slotEnd acts).Sublist acts
    ∧ ∀ a, a ∈ getActivitiesForSlot day slotStart slotEnd acts ↔
        (a ∈ acts ∧ jsToLower a.day = jsToLower day ∧
          jsLt (timeToMinutes a.start_time) (timeToMinutes slotEnd) = true ∧
          jsLt (timeToMinutes slotStart) (timeToMinutes a.end_time) = true) :=
  ⟨List.filter_sublist acts, fun a => mem_getActivitiesForSlot a day slotStart slotEnd acts⟩

/-- **C9.** The recovered payload's source identifier is validated with a
falsiness check: whenever the `timetable_source_id` member is absent,
`null`, or the number 0, the handler responds
`No timetable_source_id in processor output`, performs no database read
(the outcome is independent of the database), and the response is identical
to the one for a payload missing the field entirely. -/
theorem C9_falsy_source_id (result : Json) (db db' : Json → DbOutcome)
    (h : jsMember result "timetable_source_id" = Except.ok none ∨
         jsMember result "timetable_source_id" = Except.ok (some Json.null) ∨
         jsMember result "timetable_source_id" = Except.ok (some (Json.num 0))) :
    handleResult result db =
      some (500, Json.obj [("error", Json.str "No timetable_source_id in processor output")])
    ∧ handleResult result db = handleResult result db'
    ∧ handleResult result db = handleResult (Json.obj []) db := by
  have hbody : handleResult result db =
      some (500, Json.obj [("error", Json.str "No timetable_source_id in processor output")]) := by
    unfold handleResult
    rcases h with h | h | h <;> rw [h] <;> simp [jsFalsy]
  have hbody' : handleResult result db' =
      some (500, Json.obj [("error", Json.str "No timetable_source_id in processor output")]) := by
    unfold handleResult
    rcases h with h | h | h <;> rw [h] <;> simp [jsFalsy]
  exact ⟨hbody, hbody.trans hbody'.symm, hbody⟩

/-- **C9, witness.** A payload carrying the literal identifier 0 receives
the missing-identifier error response. -/
theorem C9_falsy_source_id_witness :
    handleResult (Json.obj [("timetable_source_id", Json.num 0)])
      (fun _ => DbOutcome.notFound) =
      some (500, Json.obj [("error", Json.str "No timetable_source_id in processor output")]) :=
  (C9_falsy_source_id (Json.obj [("timetable_source_id", Json.num 0)])
    (fun _ => DbOutcome.notFound) (fun _ => DbOutcome.fail "x")
    (Or.inr (Or.inr rfl))).1

/-- Case analysis for a string-or-nullish property value. -/
lemma strOrNullish_cases (x : Option Json) (hx : isStrOrNullish x = true) :
    jsNullish x = true ∨ ∃ s, x = some (Json.str s) := by
  match x with
  | none => exact Or.inl rfl
  | some Json.null => exact Or.inl rfl
  | some (Json.str s) => exact Or.inr ⟨s, rfl⟩
  | some (Json.bool b) => simp [isStrOrNullish] at hx
  | some (Json.num n) => simp [isStrOrNullish] at hx
  | some (Json.arr l) => simp [isStrOrNullish] at hx
  | some (Json.obj f) => simp [isStrOrNullish] at hx

/-- A non-nullish string-or-nullish value is a string. -/
lemma strOrNullish_not_nullish (x : Option Json) (hx : isStrOrNullish x = true)
    (hn : jsNullish x = false) : ∃ s, x = some (Json.str s) := by
  rcases strOrNullish_cases x hx with h | h
  · rw [h] at hn; cases hn
  · exact h

/-- **C10.** After a successful upload, every element of the activities list
is normalized so that its `activity_name` is a string: the original
`activity_name` when non-nullish, else the legacy `activity` value, else the
empty string — so no normalized element has a nullish name. -/
theorem C10_name_normalization (l : List RawActivity)
    (h : ∀ a ∈ l, isStrOrNullish a.activity_name = true ∧ isStrOrNullish a.activity = true) :
    ∀ a ∈ l,
      (∃ s, (normalizeActivity a).activity_name = some (Json.str s))
      ∧ jsNullish (normalizeActivity a).activity_name = false
      ∧ (jsNullish a.activity_name = false →
          (normalizeActivity a).activity_name = a.activity_name)
      ∧ (jsNullish a.activity_name = true → jsNullish a.activity = false →
          (normalizeActivity a).activity_name = a.activity)
      ∧ (jsNullish a.activity_name = true → jsNullish a.activity = true →
          (normalizeActivity a).activity_name = some (Json.str ""))
      ∧ normalizeActivity a ∈ normalizeActivities l := by
  intro a ha
  obtain ⟨h1, h2⟩ := h a ha
  have hname : (normalizeActivity a).activity_name =
      jsCoalesce a.activity_name (jsCoalesce a.activity (some (Json.str ""))) := rfl
  have hstr : ∃ s, (normalizeActivity a).activity_name = some (Json.str s) := by
    rw [hname]
    unfold jsCoalesce
    by_cases hn1 : jsNullish a.activity_name = true
    · rw [if_pos hn1]
      by_cases hn2 : jsNullish a.activity = true
      · rw [if_pos hn2]; exact ⟨"", rfl⟩
      · rw [if_neg hn2]
        exact strOrNullish_not_nullish a.activity h2 (by simpa using hn2)
    · rw [if_neg hn1]
      exact strOrNullish_not_nullish a.activity_name h1 (by simpa using hn1)
  refine ⟨hstr, ?_, ?_, ?_, ?_, List.mem_map_of_mem normalizeActivity ha⟩
  · obtain ⟨s, hs⟩ := hstr
    rw [hs]; rfl
  · intro hn1
    rw [hname]
    unfold jsCoalesce
    rw [if_neg (by simp [hn1])]
  · intro hn1 hn2
    rw [hname]
    unfold jsCoalesce
    rw [if_pos hn1, if_neg (by simp [hn2])]
  · intro hn1 hn2
    rw [hname]
    unfold jsCoalesce
    rw [if_pos hn1, if_pos hn2]

/-- **C10, witness.** An element with `activity_name: null` and legacy
`activity: "Math"` is normalized to `activity_name = "Math"`. -/
theorem C10_name_normalization_witness :
    (normalizeActivity ⟨none, none, none, none, none, some Json.null,
      some (Json.str "Math")⟩).activity_name = some (Json.str "Math") :=
  ((C10_name_normalization
    [⟨none, none, none, none, none, some Json.null, some (Json.str "Math")⟩]
    (fun a ha => by rw [List.mem_singleton] at ha; subst ha; exact ⟨rfl, rfl⟩)
    ⟨none, none, none, none, none, some Json.null, some (Json.str "Math")⟩
    (List.mem_singleton.mpr rfl)).2.2.2.1) rfl rfl
